import Mathlib

/-!
Shallow embedding of `src/eqs/matrix.py` (class `Matrix`).

Numbers are modelled as rationals `ℚ`.  The backing store `self.__data`
(a Python list of lists) is a `List (List ℚ)`; the class establishes and
preserves the invariant that the store holds exactly `rows_count` rows of
`cols_count` values each, so the invariant is carried as two proof fields.

Python list indexing accepts any integer in `[-n, n)` for a list of
length `n` (negative indices alias from the end) and raises `IndexError`
otherwise; this is modelled by `pyIdx`.  Methods that can raise return
`Except String`.  In-range loop bodies of the source (loops over
`range(rows_count)` / `range(cols_count)`, which never raise given the
storage invariant) are rendered by their net functional effect.

The external collaborators `eqs.Vector`, `geom2d.are_close_enough` and
`utils.lists.list_of_list_of_zeros` are not under `src/`; they are
modelled from the spec (see the individual doc comments).
-/

namespace Eqs

/-- Python sequence index resolution for a sequence of length `n`: a
non-negative index `i` is valid when `i < n`; a negative index is valid when
`-n ≤ i` and denotes position `n + i`.  `none` models an `IndexError`. -/
def pyIdx (n : ℕ) (i : ℤ) : Option ℕ :=
  if 0 ≤ i then
    if i < (n : ℤ) then some i.toNat else none
  else
    if -(n : ℤ) ≤ i then some (i + (n : ℤ)).toNat else none

/-- The set of indices a Python sequence of length `n` accepts: `[-n, n)`. -/
def PyValid (n : ℕ) (i : ℤ) : Prop :=
  -(n : ℤ) ≤ i ∧ i < (n : ℤ)

instance (n : ℕ) (i : ℤ) : Decidable (PyValid n i) :=
  inferInstanceAs (Decidable (_ ∧ _))

/-- A successfully resolved Python index lands inside the list. -/
def pyIdx_lt {n : ℕ} {i : ℤ} {k : ℕ} (h : pyIdx n i = some k) : k < n := by
  unfold pyIdx at h
  split_ifs at h <;> simp_all <;> omega

/-- Modelled from the spec: `utils.lists.list_of_list_of_zeros` (module
`utils.lists`, not under `src/`) allocates a `rows × cols` grid of zeroes. -/
def list_of_list_of_zeros (rows cols : ℕ) : List (List ℚ) :=
  List.replicate rows (List.replicate cols 0)

/-- The `Matrix` class: shape, dense row-major store, and the storage
invariant (`rows_count` rows of `cols_count` values each) that
`__init__` establishes and every method preserves. -/
structure Matrix where
  rows_count : ℕ
  cols_count : ℕ
  data : List (List ℚ)
  data_rows : data.length = rows_count
  data_cols : ∀ r ∈ data, r.length = cols_count

/-- `Matrix.__init__(rows_count, cols_count)`: store the shape and allocate a
zero-filled grid. -/
def Matrix.init (rows cols : ℕ) : Matrix :=
  ⟨rows, cols, list_of_list_of_zeros rows cols,
   by simp [list_of_list_of_zeros],
   by
    intro r hr
    simp only [list_of_list_of_zeros] at hr
    rw [List.eq_of_mem_replicate hr]
    simp⟩

/-- `is_square`: computed at construction as `rows_count == cols_count`;
since the shape is immutable this derived form is equivalent. -/
def Matrix.is_square (m : Matrix) : Bool :=
  m.rows_count == m.cols_count

/-- In-range read of the backing store, `self.__data[r][c]`, for the natural
indices generated by the source's loops (always within bounds given the
storage invariant). -/
def Matrix.get (m : Matrix) (r c : ℕ) : ℚ :=
  (m.data.getD r []).getD c 0

/-- Each stored row has length `cols_count` (storage invariant, read off at a
concrete in-range row). -/
def Matrix.row_length (m : Matrix) {r : ℕ} (h : r < m.data.length) :
    (m.data.getD r []).length = m.cols_count := by
  rw [List.getD_eq_getElem _ _ h]
  exact m.data_cols _ (List.getElem_mem h)

/-- Replace row `r` of the store by `newRow` (invariant-preserving store
update; `List.set` past the end is a no-op, matching that the callers only
use it with a resolved, in-range row index). -/
def Matrix.withRow (m : Matrix) (r : ℕ) (newRow : List ℚ)
    (h : newRow.length = m.cols_count) : Matrix :=
  ⟨m.rows_count, m.cols_count, m.data.set r newRow,
   by rw [List.length_set]; exact m.data_rows,
   by
    intro x hx
    rcases List.mem_or_eq_of_mem_set hx with hx2 | rfl
    · exact m.data_cols x hx2
    · exact h⟩

/-- Grid builder: the net effect of the source's doubly nested loops
`for i in range(rows): for j in range(cols): data[i][j] = f i j`,
which write every cell exactly once and never go out of range. -/
def Matrix.ofFn (rows cols : ℕ) (f : ℕ → ℕ → ℚ) : Matrix :=
  ⟨rows, cols,
   (List.range rows).map fun i => (List.range cols).map fun j => f i j,
   by simp,
   by
    intro x hx
    simp only [List.mem_map, List.mem_range] at hx
    obtain ⟨i, hi, rfl⟩ := hx
    simp⟩

/-- Write `v` into cell `(r, c)` of the store (resolved natural indices;
the callers only reach this with `r` in range, where the guard holds). -/
def Matrix.setCell (m : Matrix) (r c : ℕ) (v : ℚ) : Matrix :=
  if hr : r < m.data.length then
    m.withRow r ((m.data.getD r []).set c v)
      (by rw [List.length_set]; exact m.row_length hr)
  else m

/-- `set_value(value, row, col)`: `self.__data[row][col] = value; return self`.
The subscript on `self.__data` and the item assignment on the row each raise
`IndexError` for an invalid (Python) index. -/
def Matrix.set_value (m : Matrix) (value : ℚ) (row col : ℤ) :
    Except String Matrix :=
  match pyIdx m.data.length row with
  | none => .error "list index out of range"
  | some r =>
    match pyIdx (m.data.getD r []).length col with
    | none => .error "list assignment index out of range"
    | some c => .ok (m.setCell r c value)

/-- `add_to_value(amount, row, col)`: `self.__data[row][col] += amount;
return self` (read the current value, add, write back). -/
def Matrix.add_to_value (m : Matrix) (amount : ℚ) (row col : ℤ) :
    Except String Matrix :=
  match pyIdx m.data.length row with
  | none => .error "list index out of range"
  | some r =>
    match pyIdx (m.data.getD r []).length col with
    | none => .error "list index out of range"
    | some c => .ok (m.setCell r c ((m.data.getD r []).getD c 0 + amount))

/-- `set_data(data)`: raise `ValueError('Cannot set data: size mismatch')`
when `len(data) != cols_count * rows_count`; otherwise fill the grid
row-major (`data[row][col] = vals[cols_count * row + col]`) and return self. -/
def Matrix.set_data (m : Matrix) (vals : List ℚ) : Except String Matrix :=
  if vals.length ≠ m.cols_count * m.rows_count then
    .error "Cannot set data: size mismatch"
  else
    .ok (Matrix.ofFn m.rows_count m.cols_count fun row col =>
      vals.getD (m.cols_count * row + col) 0)

/-- `set_identity_row(row)`: `for col in range(cols_count):
self.__data[row][col] = 1 if row == col else 0; return self`.  When
`cols_count = 0` the loop body never runs (so no index is ever checked);
otherwise the first write resolves `row` against the store. -/
def Matrix.set_identity_row (m : Matrix) (row : ℤ) : Except String Matrix :=
  if m.cols_count = 0 then .ok m
  else
    match pyIdx m.data.length row with
    | none => .error "list assignment index out of range"
    | some r =>
      .ok (m.withRow r
        ((List.range m.cols_count).map fun (col : ℕ) =>
          if row = (col : ℤ) then (1 : ℚ) else 0)
        (by rw [List.length_map, List.length_range]))

/-- `set_identity_col(col)`: `for row in range(rows_count):
self.__data[row][col] = 1 if row == col else 0; return self`.  When
`rows_count = 0` the loop body never runs; otherwise each iteration assigns
position `col` of a row of length `cols_count` (storage invariant), writing
`1` exactly where the integer loop index equals the `col` argument. -/
def Matrix.set_identity_col (m : Matrix) (col : ℤ) : Except String Matrix :=
  if m.rows_count = 0 then .ok m
  else
    match pyIdx m.cols_count col with
    | none => .error "list assignment index out of range"
    | some c =>
      .ok (Matrix.ofFn m.rows_count m.cols_count fun r j =>
        if j = c then (if (r : ℤ) = col then 1 else 0) else m.get r j)

/-- `value_at(row, col)`: `return self.__data[row][col]`. -/
def Matrix.value_at (m : Matrix) (row col : ℤ) : Except String ℚ :=
  match pyIdx m.data.length row with
  | none => .error "list index out of range"
  | some r =>
    match pyIdx (m.data.getD r []).length col with
    | none => .error "list index out of range"
    | some c => .ok ((m.data.getD r []).getD c 0)

/-- `value_transposed_at(row, col)`: `return self.__data[col][row]`. -/
def Matrix.value_transposed_at (m : Matrix) (row col : ℤ) :
    Except String ℚ :=
  match pyIdx m.data.length col with
  | none => .error "list index out of range"
  | some r =>
    match pyIdx (m.data.getD r []).length row with
    | none => .error "list index out of range"
    | some c => .ok ((m.data.getD r []).getD c 0)

/-- `scale(factor)`: `self.__data[i][j] *= factor` over the whole grid,
in place; returns self. -/
def Matrix.scale (m : Matrix) (factor : ℚ) : Matrix :=
  Matrix.ofFn m.rows_count m.cols_count fun i j => m.get i j * factor

/-- Modelled from the spec: the external `eqs.Vector` collaborator (module
`eqs`, not under `src/`): it has a `length` and supports getting and setting
a value at an index; `Vector(n)` allocates a vector of length `n`. -/
structure Vector where
  data : List ℚ

/-- Modelled from the spec: `Vector.length`. -/
def Vector.length (v : Vector) : ℕ := v.data.length

/-- Modelled from the spec: `Vector.value_at(i)`, the indexed getter. -/
def Vector.value_at (v : Vector) (i : ℕ) : ℚ := v.data.getD i 0

/-- Modelled from the spec: `Vector.set_value(value, i)`, the indexed
setter. -/
def Vector.set_value (v : Vector) (value : ℚ) (i : ℕ) : Vector :=
  ⟨v.data.set i value⟩

/-- Modelled from the spec: `Vector(n)` allocates a vector of length `n`
(every entry of a `times_vector` result is overwritten, so the initial
contents are irrelevant; zero is used). -/
def Vector.init (n : ℕ) : Vector := ⟨List.replicate n 0⟩

/-- `times_vector(v)`: raise `ValueError('Size mismatch')` when
`cols_count != v.length`; otherwise build a fresh `Vector(rows_count)` whose
entry `i` is the accumulated sum of `self.__data[i][j] * v.value_at(j)` over
`j in range(cols_count)`. -/
def Matrix.times_vector (m : Matrix) (v : Vector) : Except String Vector :=
  if m.cols_count ≠ v.length then .error "Size mismatch"
  else
    .ok ⟨(List.range m.rows_count).map fun i =>
      ((List.range m.cols_count).map fun j => m.get i j * v.value_at j).sum⟩

/-- `__add__(other)`: raise `ValueError('Size mismatch')` when the row counts
differ, then when the column counts differ; otherwise return a copy of self
with `other.__data[i][j]` added into every cell. -/
def Matrix.add (m other : Matrix) : Except String Matrix :=
  if m.rows_count ≠ other.rows_count then .error "Size mismatch"
  else if m.cols_count ≠ other.cols_count then .error "Size mismatch"
  else
    .ok (Matrix.ofFn m.rows_count m.cols_count fun i j =>
      m.get i j + other.get i j)

/-- `__mul__(other)`: `return other` (the right-hand operand, unchanged). -/
def Matrix.mul {α : Type} (_m : Matrix) (other : α) : α := other

/-- `copy()`: a fresh `Matrix(rows_count, cols_count)` with every cell copied
from self. -/
def Matrix.copy (m : Matrix) : Matrix :=
  Matrix.ofFn m.rows_count m.cols_count fun i j => m.get i j

/-- A Python value compared against a `Matrix` by `__eq__`: either another
`Matrix`, or any non-`Matrix` value (for which `isinstance` fails). -/
inductive PyVal where
  | mat (m : Matrix)
  | nonMatrix

/-- `__eq__(other)`: `self is other` fast path (modelled by the `same` flag),
then `isinstance` check, then the two shape checks, then every corresponding
element pair compared with the external `are_close_enough` tolerance
predicate.  `are_close_enough` lives in `geom2d` (not under `src/`) and is
modelled from the spec as the parameter `close`. -/
def Matrix.eq (close : ℚ → ℚ → Bool) (same : Bool) (m : Matrix)
    (other : PyVal) : Bool :=
  if same then true
  else
    match other with
    | .nonMatrix => false
    | .mat o =>
      if m.rows_count ≠ o.rows_count then false
      else if m.cols_count ≠ o.cols_count then false
      else
        (List.range m.rows_count).all fun i =>
          (List.range m.cols_count).all fun j =>
            close (m.get i j) (o.get i j)

/-- Concrete 2×2 matrix `[[1, 2], [3, 4]]` used by the spec's examples. -/
def m22 : Matrix := ⟨2, 2, [[1, 2], [3, 4]], by decide, by decide⟩

/-- Concrete vector `[5, 6]` used by the spec's `times_vector` example. -/
def v2 : Vector := ⟨[5, 6]⟩

/-- Concrete 1×2 zero matrix (shape-mismatch counterpart for `m22`). -/
def m12 : Matrix := Matrix.init 1 2

theorem pyIdx_isSome_iff (n : ℕ) (i : ℤ) :
    (pyIdx n i).isSome = true ↔ PyValid n i := by
  unfold pyIdx PyValid
  split_ifs <;> simp <;> omega

theorem pyIdx_none_iff (n : ℕ) (i : ℤ) : pyIdx n i = none ↔ ¬ PyValid n i := by
  rw [← pyIdx_isSome_iff n i]
  cases pyIdx n i <;> simp

theorem pyIdx_some_valid {n : ℕ} {i : ℤ} {k : ℕ} (h : pyIdx n i = some k) :
    PyValid n i := by
  rw [← pyIdx_isSome_iff n i, h]
  rfl

theorem pyIdx_coe {n k : ℕ} (h : k < n) : pyIdx n (k : ℤ) = some k := by
  unfold pyIdx
  rw [if_pos (Int.natCast_nonneg k), if_pos (by exact_mod_cast h)]
  simp

theorem getD_map_range {α : Type} (f : ℕ → α) {n i : ℕ} (d : α) (h : i < n) :
    ((List.range n).map f).getD i d = f i := by
  have hl : i < ((List.range n).map f).length := by simpa using h
  rw [List.getD_eq_getElem _ _ hl]
  simp

theorem ofFn_rows (rows cols : ℕ) (f : ℕ → ℕ → ℚ) :
    (Matrix.ofFn rows cols f).rows_count = rows := rfl

theorem ofFn_cols (rows cols : ℕ) (f : ℕ → ℕ → ℚ) :
    (Matrix.ofFn rows cols f).cols_count = cols := rfl

theorem ofFn_get {rows cols : ℕ} (f : ℕ → ℕ → ℚ) {i j : ℕ}
    (hi : i < rows) (hj : j < cols) :
    (Matrix.ofFn rows cols f).get i j = f i j := by
  unfold Matrix.ofFn Matrix.get
  rw [getD_map_range _ _ hi, getD_map_range _ _ hj]

theorem value_at_coe (m : Matrix) {i j : ℕ}
    (hi : i < m.rows_count) (hj : j < m.cols_count) :
    m.value_at (i : ℤ) (j : ℤ) = Except.ok (m.get i j) := by
  have h1 : i < m.data.length := by rw [m.data_rows]; exact hi
  have h2 : j < (m.data.getD i []).length := by rw [m.row_length h1]; exact hj
  unfold Matrix.value_at
  rw [pyIdx_coe h1]
  dsimp only
  rw [pyIdx_coe h2]
  rfl

theorem ofFn_value_at {rows cols : ℕ} (f : ℕ → ℕ → ℚ) {i j : ℕ}
    (hi : i < rows) (hj : j < cols) :
    (Matrix.ofFn rows cols f).value_at (i : ℤ) (j : ℤ) = Except.ok (f i j) := by
  rw [value_at_coe (Matrix.ofFn rows cols f) hi hj, ofFn_get f hi hj]

/-- Claim C7: a freshly constructed `Matrix(rows, cols)` has `rows_count ==
rows`, `cols_count == cols`, and `value_at(i, j) == 0` at every valid
position. -/
theorem init_zero_spec (rows cols i j : ℕ) (hi : i < rows) (hj : j < cols) :
    (Matrix.init rows cols).rows_count = rows ∧
    (Matrix.init rows cols).cols_count = cols ∧
    (Matrix.init rows cols).value_at (i : ℤ) (j : ℤ) = Except.ok 0 := by
  refine ⟨rfl, rfl, ?_⟩
  rw [value_at_coe (Matrix.init rows cols) hi hj]
  unfold Matrix.init Matrix.get list_of_list_of_zeros
  have h1 : i < (List.replicate rows (List.replicate cols (0:ℚ))).length := by
    simpa using hi
  rw [List.getD_eq_getElem _ _ h1, List.getElem_replicate]
  have h2 : j < (List.replicate cols (0:ℚ)).length := by simpa using hj
  rw [List.getD_eq_getElem _ _ h2, List.getElem_replicate]

/-- Claim C7 witness: `Matrix(2, 3)` is a zero-filled 2×3 grid, checked at
position `(1, 2)`. -/
theorem init_zero_witness :
    (Matrix.init 2 3).rows_count = 2 ∧
    (Matrix.init 2 3).cols_count = 3 ∧
    (Matrix.init 2 3).value_at 1 2 = Except.ok 0 :=
  init_zero_spec 2 3 1 2 (by decide) (by decide)

/-- Claim C8: `value_transposed_at(i, j)` returns exactly what
`value_at(j, i)` returns — for every pair of integer indices (in particular
every valid one) and every matrix state, without building a transposed
copy (both are direct reads of the same store). -/
theorem value_transposed_at_eq (m : Matrix) (i j : ℤ) :
    m.value_transposed_at i j = m.value_at j i := rfl

/-- Claim C3: the multiplication operator `__mul__` returns its right-hand
operand unchanged, whatever it is. -/
theorem mul_returns_rhs {α : Type} (m : Matrix) (x : α) : m.mul x = x := rfl

/-- Claim C10: when `set_data` is given a sequence of the wrong length it
raises the size-mismatch error; the length check precedes every element
write, so the matrix still holds its prior values (the error result carries
no modified state). -/
theorem set_data_mismatch_unchanged (m : Matrix) (vals : List ℚ)
    (h : vals.length ≠ m.rows_count * m.cols_count) :
    m.set_data vals = Except.error "Cannot set data: size mismatch" := by
  unfold Matrix.set_data
  rw [if_pos (by rw [Nat.mul_comm]; exact h)]

/-- Claim C10 witness: a 3-element list cannot fill the 2×2 matrix `m22`. -/
theorem set_data_mismatch_unchanged_witness :
    ([1, 2, 3] : List ℚ).length ≠ m22.rows_count * m22.cols_count ∧
    m22.set_data [1, 2, 3] = Except.error "Cannot set data: size mismatch" :=
  ⟨by decide, set_data_mismatch_unchanged m22 [1, 2, 3] (by decide)⟩

theorem valid_row_of_pyIdx {m : Matrix} {row : ℤ} {r : ℕ}
    (h : pyIdx m.data.length row = some r) : PyValid m.rows_count row := by
  rw [← m.data_rows]
  exact pyIdx_some_valid h

theorem not_valid_row_of_pyIdx {m : Matrix} {row : ℤ}
    (h : pyIdx m.data.length row = none) : ¬ PyValid m.rows_count row := by
  rw [← m.data_rows]
  exact (pyIdx_none_iff _ _).mp h

theorem valid_col_of_pyIdx {m : Matrix} {col : ℤ} {r c : ℕ}
    (hr : r < m.data.length)
    (h : pyIdx (m.data.getD r []).length col = some c) :
    PyValid m.cols_count col := by
  rw [m.row_length hr] at h
  exact pyIdx_some_valid h

theorem not_valid_col_of_pyIdx {m : Matrix} {col : ℤ} {r : ℕ}
    (hr : r < m.data.length)
    (h : pyIdx (m.data.getD r []).length col = none) :
    ¬ PyValid m.cols_count col := by
  rw [m.row_length hr] at h
  exact (pyIdx_none_iff _ _).mp h

theorem set_value_isOk_iff (m : Matrix) (value : ℚ) (row col : ℤ) :
    (m.set_value value row col).isOk = true ↔
      PyValid m.rows_count row ∧ PyValid m.cols_count col := by
  unfold Matrix.set_value
  split
  next h1 => simp [Except.isOk, Except.toBool, not_valid_row_of_pyIdx h1]
  next r h1 =>
    split
    next h2 =>
      simp [Except.isOk, Except.toBool, not_valid_col_of_pyIdx (pyIdx_lt h1) h2]
    next c h2 =>
      simp [Except.isOk, Except.toBool, valid_row_of_pyIdx h1,
        valid_col_of_pyIdx (pyIdx_lt h1) h2]

theorem add_to_value_isOk_iff (m : Matrix) (amount : ℚ) (row col : ℤ) :
    (m.add_to_value amount row col).isOk = true ↔
      PyValid m.rows_count row ∧ PyValid m.cols_count col := by
  unfold Matrix.add_to_value
  split
  next h1 => simp [Except.isOk, Except.toBool, not_valid_row_of_pyIdx h1]
  next r h1 =>
    split
    next h2 =>
      simp [Except.isOk, Except.toBool, not_valid_col_of_pyIdx (pyIdx_lt h1) h2]
    next c h2 =>
      simp [Except.isOk, Except.toBool, valid_row_of_pyIdx h1,
        valid_col_of_pyIdx (pyIdx_lt h1) h2]

theorem value_at_isOk_iff (m : Matrix) (row col : ℤ) :
    (m.value_at row col).isOk = true ↔
      PyValid m.rows_count row ∧ PyValid m.cols_count col := by
  unfold Matrix.value_at
  split
  next h1 => simp [Except.isOk, Except.toBool, not_valid_row_of_pyIdx h1]
  next r h1 =>
    split
    next h2 =>
      simp [Except.isOk, Except.toBool, not_valid_col_of_pyIdx (pyIdx_lt h1) h2]
    next c h2 =>
      simp [Except.isOk, Except.toBool, valid_row_of_pyIdx h1,
        valid_col_of_pyIdx (pyIdx_lt h1) h2]

theorem set_identity_row_isOk_iff (m : Matrix) (row : ℤ) :
    (m.set_identity_row row).isOk = true ↔
      m.cols_count = 0 ∨ PyValid m.rows_count row := by
  unfold Matrix.set_identity_row
  split
  next h0 => simp [Except.isOk, Except.toBool, h0]
  next h0 =>
    split
    next h1 => simp [Except.isOk, Except.toBool, h0, not_valid_row_of_pyIdx h1]
    next r h1 => simp [Except.isOk, Except.toBool, valid_row_of_pyIdx h1]

theorem set_identity_col_isOk_iff (m : Matrix) (col : ℤ) :
    (m.set_identity_col col).isOk = true ↔
      m.rows_count = 0 ∨ PyValid m.cols_count col := by
  unfold Matrix.set_identity_col
  split
  next h0 => simp [Except.isOk, Except.toBool, h0]
  next h0 =>
    split
    next h1 => simp [Except.isOk, Except.toBool, h0, (pyIdx_none_iff _ _).mp h1]
    next c h1 => simp [Except.isOk, Except.toBool, pyIdx_some_valid h1]

/-- Claim C2 counterexample: on the 1×1 zero matrix, `value_at(-1, 0)` — a
row index outside `[0, rows_count)` — returns `0` instead of raising an
out-of-range error (Python aliases the negative index to the last row). -/
theorem value_at_negative_index_ok :
    (Matrix.init 1 1).value_at (-1) 0 = Except.ok 0 ∧ (-1 : ℤ) < 0 :=
  ⟨rfl, by decide⟩

/-- Claim C2 (amended): each indexed accessor/mutator raises its
out-of-range error exactly when an element access resolves an index outside
Python's accepted range `[-n, n)` (for `n` the relevant dimension): for
`set_value`, `add_to_value` and `value_at` this means `row ∉
[-rows_count, rows_count)` or `col ∉ [-cols_count, cols_count)` — negative
indices in range alias from the end and raise nothing; `set_identity_row`
raises only when `cols_count > 0` and `row` is outside its range (an empty
loop checks nothing), and `set_identity_col` only when `rows_count > 0` and
`col` is outside its range. -/
theorem index_ops_error_iff (m : Matrix) (value amount : ℚ) (row col : ℤ) :
    ((m.set_value value row col).isOk = true ↔
      PyValid m.rows_count row ∧ PyValid m.cols_count col) ∧
    ((m.add_to_value amount row col).isOk = true ↔
      PyValid m.rows_count row ∧ PyValid m.cols_count col) ∧
    ((m.value_at row col).isOk = true ↔
      PyValid m.rows_count row ∧ PyValid m.cols_count col) ∧
    ((m.set_identity_row row).isOk = true ↔
      m.cols_count = 0 ∨ PyValid m.rows_count row) ∧
    ((m.set_identity_col col).isOk = true ↔
      m.rows_count = 0 ∨ PyValid m.cols_count col) :=
  ⟨set_value_isOk_iff m value row col, add_to_value_isOk_iff m amount row col,
   value_at_isOk_iff m row col, set_identity_row_isOk_iff m row,
   set_identity_col_isOk_iff m col⟩

/-- Claim C2 witness: on `Matrix(2, 3)`, `set_value` at the valid position
`(1, 2)` succeeds, while `value_at` with row index `5` fails. -/
theorem index_ops_error_witness :
    ((Matrix.init 2 3).set_value 7 1 2).isOk = true ∧
    ((Matrix.init 2 3).value_at 5 0).isOk = false :=
  ⟨(index_ops_error_iff (Matrix.init 2 3) 7 0 1 2).1.mpr
     ⟨by decide, by decide⟩,
   by decide⟩

theorem sum_map_range (f : ℕ → ℚ) (n : ℕ) :
    ((List.range n).map f).sum = ∑ j in Finset.range n, f j := by
  induction n with
  | zero => simp
  | succ k ih =>
    rw [List.range_succ, List.map_append, List.sum_append,
      Finset.sum_range_succ, ih]
    simp

/-- Claim C1: `times_vector(v)` raises the size-mismatch error exactly when
`cols_count != v.length`; otherwise it returns a new vector of length
`rows_count` whose entry `i` is the dot product of row `i` with `v`. -/
theorem times_vector_spec (m : Matrix) (v : Vector) :
    (m.cols_count ≠ v.length →
      m.times_vector v = Except.error "Size mismatch") ∧
    (m.cols_count = v.length → (m.times_vector v).isOk = true) ∧
    (∀ w, m.times_vector v = Except.ok w →
      w.length = m.rows_count ∧
      ∀ i, i < m.rows_count →
        w.value_at i =
          ∑ j in Finset.range m.cols_count, m.get i j * v.value_at j) := by
  refine ⟨?_, ?_, ?_⟩
  · intro h
    unfold Matrix.times_vector
    rw [if_pos h]
  · intro h
    unfold Matrix.times_vector
    rw [if_neg (by simp [h])]
    rfl
  · intro w hw
    unfold Matrix.times_vector at hw
    split at hw
    · exact absurd hw (by simp)
    · injection hw with hw2
      subst hw2
      constructor
      · simp [Vector.length]
      · intro i hi
        unfold Vector.value_at
        dsimp only
        rw [getD_map_range _ _ hi, sum_map_range]

/-- Claim C1 witness: for the 2×2 matrix `[[1, 2], [3, 4]]` and the vector
`[5, 6]`, the product is `[17, 39]`. -/
theorem times_vector_witness :
    m22.times_vector v2 = Except.ok (Vector.mk [17, 39]) ∧
    (Vector.mk [17, 39]).length = m22.rows_count ∧
    (Vector.mk [17, 39]).value_at 0 = 17 ∧
    (Vector.mk [17, 39]).value_at 1 = 39 := by
  have hok : m22.times_vector v2 = Except.ok (Vector.mk [17, 39]) := by
    unfold Matrix.times_vector
    rw [if_neg (by decide)]
    simp only [Except.ok.injEq, Vector.mk.injEq]
    norm_num [List.range_succ, m22, v2, Matrix.get, Vector.value_at]
  have h := (times_vector_spec m22 v2).2.2 (Vector.mk [17, 39]) hok
  exact ⟨hok, h.1, rfl, rfl⟩

theorem eq_mat_true_iff (close : ℚ → ℚ → Bool) (a b : Matrix)
    (hr : a.rows_count = b.rows_count) (hc : a.cols_count = b.cols_count) :
    Matrix.eq close false a (PyVal.mat b) = true ↔
      ∀ i, i < a.rows_count → ∀ j, j < a.cols_count →
        close (a.get i j) (b.get i j) = true := by
  unfold Matrix.eq
  rw [if_neg (by simp)]
  dsimp only
  rw [if_neg (by simp [hr]), if_neg (by simp [hc])]
  simp [List.all_eq_true, List.mem_range]

/-- Claim C4: `__eq__` returns True for the same instance (identity fast
path, modelled by the `same` flag — hence equality is reflexive); False
against any non-Matrix value; False when `rows_count` or `cols_count`
differ; and otherwise True exactly when every corresponding element pair
satisfies the external tolerance predicate `are_close_enough` (the
parameter `close`). -/
theorem eq_spec (close : ℚ → ℚ → Bool) (a : Matrix) :
    (∀ b, Matrix.eq close true a b = true) ∧
    (Matrix.eq close false a PyVal.nonMatrix = false) ∧
    (∀ b, a.rows_count ≠ b.rows_count ∨ a.cols_count ≠ b.cols_count →
      Matrix.eq close false a (PyVal.mat b) = false) ∧
    (∀ b, a.rows_count = b.rows_count → a.cols_count = b.cols_count →
      (Matrix.eq close false a (PyVal.mat b) = true ↔
        ∀ i, i < a.rows_count → ∀ j, j < a.cols_count →
          close (a.get i j) (b.get i j) = true)) ∧
    Matrix.eq close true a (PyVal.mat a) = true := by
  refine ⟨fun b => rfl, rfl, ?_, fun b => eq_mat_true_iff close a b, rfl⟩
  intro b hb
  unfold Matrix.eq
  rw [if_neg (by simp)]
  dsimp only
  rcases hb with hb | hb
  · rw [if_pos hb]
  · by_cases hr : a.rows_count = b.rows_count
    · rw [if_neg (by simp [hr]), if_pos hb]
    · rw [if_pos hr]

/-- Claim C4 witness: `m22` compares False to the 1×2 matrix `m12` (shape
mismatch) and True to itself through the identity fast path, under the
exact comparison as the tolerance predicate. -/
theorem eq_witness :
    Matrix.eq (fun x y => x == y) false m22 (PyVal.mat m12) = false ∧
    Matrix.eq (fun x y => x == y) true m22 (PyVal.mat m22) = true := by
  have h := eq_spec (fun x y => x == y) m22
  exact ⟨h.2.2.1 m12 (Or.inl (by decide)), h.2.2.2.2⟩

theorem add_ok_elements (a b : Matrix) :
    ∀ s, a.add b = Except.ok s →
      s.rows_count = a.rows_count ∧ s.cols_count = a.cols_count ∧
      ∀ i j, i < a.rows_count → j < a.cols_count →
        s.value_at (i : ℤ) (j : ℤ) = Except.ok (a.get i j + b.get i j) := by
  intro s hs
  unfold Matrix.add at hs
  split at hs
  · exact absurd hs (by simp)
  · split at hs
    · exact absurd hs (by simp)
    · injection hs with hs2
      subst hs2
      refine ⟨rfl, rfl, ?_⟩
      intro i j hi hj
      rw [ofFn_value_at _ hi hj]

/-- Claim C5: matrix addition raises size-mismatch when the row counts or
the column counts differ (rows checked first, columns second, with the same
error); otherwise it returns a new matrix of the shape of the left operand
in which every element is the sum of the operands' corresponding elements;
in particular adding a matrix to itself doubles every element. -/
theorem add_spec (a b : Matrix) :
    (a.rows_count ≠ b.rows_count ∨ a.cols_count ≠ b.cols_count →
      a.add b = Except.error "Size mismatch") ∧
    (a.rows_count = b.rows_count → a.cols_count = b.cols_count →
      (a.add b).isOk = true) ∧
    (∀ s, a.add b = Except.ok s →
      s.rows_count = a.rows_count ∧ s.cols_count = a.cols_count ∧
      ∀ i j, i < a.rows_count → j < a.cols_count →
        s.value_at (i : ℤ) (j : ℤ) = Except.ok (a.get i j + b.get i j)) ∧
    (∀ s, a.add a = Except.ok s →
      ∀ i j, i < a.rows_count → j < a.cols_count →
        s.value_at (i : ℤ) (j : ℤ) = Except.ok (2 * a.get i j)) := by
  refine ⟨?_, ?_, add_ok_elements a b, ?_⟩
  · intro h
    unfold Matrix.add
    rcases h with h | h
    · rw [if_pos h]
    · by_cases hr : a.rows_count = b.rows_count
      · rw [if_neg (by simp [hr]), if_pos h]
      · rw [if_pos hr]
  · intro h1 h2
    unfold Matrix.add
    rw [if_neg (by simp [h1]), if_neg (by simp [h2])]
    rfl
  · intro s hs i j hi hj
    rw [(add_ok_elements a a s hs).2.2 i j hi hj]
    congr 1
    ring

/-- Claim C5 witness: adding `m22` to the shape-mismatched 1×2 zero matrix
`m12` fails with size-mismatch; adding `m22` to itself succeeds. -/
theorem add_witness :
    m22.add m12 = Except.error "Size mismatch" ∧
    (m22.add m22).isOk = true :=
  ⟨(add_spec m22 m12).1 (Or.inl (by decide)),
   (add_spec m22 m22).2.1 rfl rfl⟩

/-- Claim C6: `set_data(data)` raises size-mismatch exactly when the list
length differs from `rows_count * cols_count`; otherwise it fills the
matrix row-major — afterwards `value_at(r, c) == data[r * cols_count + c]`
for every valid `(r, c)` — and returns the (updated) matrix itself. -/
theorem set_data_spec (m : Matrix) (vals : List ℚ) :
    (vals.length ≠ m.rows_count * m.cols_count →
      m.set_data vals = Except.error "Cannot set data: size mismatch") ∧
    (vals.length = m.rows_count * m.cols_count →
      (m.set_data vals).isOk = true) ∧
    (∀ s, m.set_data vals = Except.ok s →
      s.rows_count = m.rows_count ∧ s.cols_count = m.cols_count ∧
      ∀ r c, r < m.rows_count → c < m.cols_count →
        s.value_at (r : ℤ) (c : ℤ) =
          Except.ok (vals.getD (r * m.cols_count + c) 0)) := by
  refine ⟨?_, ?_, ?_⟩
  · intro h
    unfold Matrix.set_data
    rw [if_pos (by rw [Nat.mul_comm]; exact h)]
  · intro h
    unfold Matrix.set_data
    rw [if_neg (by simp [h, Nat.mul_comm])]
    rfl
  · intro s hs
    unfold Matrix.set_data at hs
    split at hs
    · exact absurd hs (by simp)
    · injection hs with hs2
      subst hs2
      refine ⟨rfl, rfl, ?_⟩
      intro r c hr hc
      rw [ofFn_value_at _ hr hc, Nat.mul_comm]

/-- Claim C6 witness: filling the 2×2 zero matrix with the 4-element list
`[9, 8, 7, 6]` succeeds; a 1-element list fails with size-mismatch. -/
theorem set_data_witness :
    ((Matrix.init 2 2).set_data [9, 8, 7, 6]).isOk = true ∧
    (Matrix.init 2 2).set_data [1] =
      Except.error "Cannot set data: size mismatch" :=
  ⟨(set_data_spec (Matrix.init 2 2) [9, 8, 7, 6]).2.1 (by decide),
   (set_data_spec (Matrix.init 2 2) [1]).1 (by decide)⟩

/-- Claim C9: `copy()` returns a matrix with the same shape and the same
element values as its source, and the copy is tolerance-equal to the source
whenever the tolerance predicate is reflexive.  The derived-value
operations (`copy`, `__add__`, `times_vector`) are pure constructions in
this embedding: they build fresh values from in-range reads of their
operands and leave the operands untouched. -/
theorem copy_preserves_spec (m : Matrix) :
    (m.copy.rows_count = m.rows_count ∧ m.copy.cols_count = m.cols_count) ∧
    (∀ i j, i < m.rows_count → j < m.cols_count →
      m.copy.value_at (i : ℤ) (j : ℤ) = m.value_at (i : ℤ) (j : ℤ)) ∧
    (∀ close : ℚ → ℚ → Bool, (∀ x, close x x = true) →
      Matrix.eq close false m (PyVal.mat m.copy) = true) := by
  have hget : ∀ i j, i < m.rows_count → j < m.cols_count →
      m.copy.get i j = m.get i j := by
    intro i j hi hj
    unfold Matrix.copy
    rw [ofFn_get _ hi hj]
  refine ⟨⟨rfl, rfl⟩, ?_, ?_⟩
  · intro i j hi hj
    rw [value_at_coe m.copy hi hj, value_at_coe m hi hj, hget i j hi hj]
  · intro close hclose
    refine (eq_mat_true_iff close m m.copy rfl rfl).mpr ?_
    intro i hi j hj
    rw [hget i j hi hj]
    exact hclose (m.get i j)

/-- Claim C9 witness: the copy of `m22` keeps its shape and its values, and
is tolerance-equal to `m22` under the (reflexive) exact comparison. -/
theorem copy_preserves_witness :
    m22.copy.rows_count = 2 ∧
    m22.copy.value_at 0 1 = m22.value_at 0 1 ∧
    Matrix.eq (fun x y => x == y) false m22 (PyVal.mat m22.copy) = true := by
  have h := copy_preserves_spec m22
  exact ⟨h.1.1, h.2.1 0 1 (by decide) (by decide),
    h.2.2 (fun x y => x == y) (fun x => by simp)⟩

end Eqs
